import Mathlib

/-!
Verification of the byoc-histogram chart adapter.

This file shallowly embeds the data-reshaping layer of the repository:
* `src/util.ts` (`arraysAreEqual`, modelled with its in-place sorting made
  explicit by returning the post-call state of both argument arrays),
* `src/TableChartModel.ts` (the current facade: `DataColumn`, `DataDetails`,
  `_populateDataColumns`, `getDataById`, `getXData`, `getYData`),
* the older variant `TableChartModelOld` (`findDataValue`, `_populate`,
  `getDataForColumnName`, `getDataForColumnId`, `getColumnsWithDataType(s)`),
* `src/histogram.ts` (`getDefaultChartConfig`).

JavaScript peculiarities are modelled explicitly:
* out-of-range array indexing yields `undefined`, embedded as `Option.none`;
* `Array.prototype.sort()` sorts in place (default comparator: lexicographic
  on the string elements), embedded as `jsSort` together with state passing;
* a `try`/`catch` around a failed catalog lookup skips the column.
-/

/-- Data values carried in a row (`any` in the source: strings or numbers). -/
inductive CellVal where
  | s (v : String)
  | n (v : Int)
deriving DecidableEq, Repr

/-- `DataType` enum of the chart SDK (the members used by the repository). -/
inductive DataType where
  | INT32
  | INT64
  | FLOAT
  | DOUBLE
  | STRING
  | DATE
  | BOOL
deriving DecidableEq, Repr

/-- `ColumnType` enum of the chart SDK. -/
inductive ColumnType where
  | ATTRIBUTE
  | MEASURE
deriving DecidableEq, Repr

/-- A column descriptor as delivered by the host (`ChartColumn` of the SDK):
`{id, name, type, dataType}`. -/
structure ChartColumn where
  id : String
  name : String
  type : ColumnType
  dataType : DataType
deriving DecidableEq, Repr

/-- One data section of the chart model (`QueryData` of the SDK), flattening
the source's `d.data.columns` / `d.data.dataValue` nesting: a candidate
row-set tagged with the column ids it carries. -/
structure QueryData where
  columns : List String
  dataValue : List (List CellVal)
deriving DecidableEq, Repr

/-- Lexicographic comparison of two character lists by code point, the order
used by the JavaScript default sort comparator (code-unit comparison of the
stringified elements). -/
def jsLeChars : List Char → List Char → Bool
  | [], _ => true
  | _ :: _, [] => false
  | a :: as, b :: bs =>
      if a.val < b.val then true
      else if b.val < a.val then false
      else jsLeChars as bs

/-- The JavaScript default sort comparator on strings. -/
def jsLe (a b : String) : Bool :=
  jsLeChars a.data b.data

/-- JavaScript default sort on an array of strings: in-place, lexicographic
by code unit. -/
def jsSort (l : List String) : List String :=
  l.insertionSort (fun a b => jsLe a b = true)

/-- Embedding of `arraysAreEqual` (src/util.ts):

```ts
if (a.length !== b.length) return false;
return a.sort().every((value, index) => value === b.sort()[index]);
```

`a.sort()` and `b.sort()` mutate the arrays in place, so besides the boolean
we return the state of both arguments after the call.  When the lengths
differ the function returns early and neither array is sorted.  Otherwise
both end up sorted (`b` is sorted by the first callback invocation; for empty
arrays no callback runs, but an empty array is unchanged by sorting).  The
`every` check compares position `index` of the two sorted arrays with `===`. -/
def arraysAreEqualM (a b : List String) : Bool × List String × List String :=
  if a.length ≠ b.length then (false, a, b)
  else
    let a' := jsSort a
    let b' := jsSort b
    ((List.range a'.length).all (fun i => a'[i]? == b'[i]?), a', b')

/-- Embedding of `TableChartModelOld.findDataValue` (src/unnamed/part_004):

```ts
if (chartModel.data) {
    for (const d of chartModel.data) {
      if (arraysAreEqual(d.data.columns, columns.map(item => item.columnId))) {
          return d;
      }
    }
}
return null;
```

`req` is the freshly built `columns.map(item => item.columnId)` array (a new
temporary on every iteration, so its mutation by `arraysAreEqual` is not
observable and is dropped here).  `d.data.columns`, however, is a live
reference into the chart model: the in-place sort persists, so alongside the
selected section we return the post-call state of the candidate list. -/
def findDataValueM (req : List String) : List QueryData → Option QueryData × List QueryData
  | [] => (none, [])
  | d :: rest =>
      let r := arraysAreEqualM d.columns req
      let d' : QueryData := { d with columns := r.2.1 }
      if r.1 then (some d', d' :: rest)
      else
        let t := findDataValueM req rest
        (t.1, d' :: t.2)

/-- Comparison of two column-id lists as unordered sets (ignoring
multiplicity).  This follows the spec's words — "compare, as unordered sets,
each candidate's column-ID list against the requested set" — and is used to
compare the spec's selection rule with the one implemented by
`arraysAreEqualM`. -/
def sameAsSets (a b : List String) : Bool :=
  a.all (fun x => b.contains x) && b.all (fun x => a.contains x)

/-! ### Helper lemmas about `jsSort` and `arraysAreEqualM` -/

theorem jsSort_length (l : List String) : (jsSort l).length = l.length :=
  List.length_insertionSort _ l

theorem jsSort_perm (l : List String) : (jsSort l).Perm l :=
  List.perm_insertionSort _ l

/-- Elementwise comparison over the index range decides list equality when
the lengths agree. -/
theorem all_range_getElem_eq (x y : List String) (h : x.length = y.length) :
    ((List.range x.length).all (fun i => x[i]? == y[i]?)) = decide (x = y) := by
  by_cases hxy : x = y
  · subst hxy
    simp
  · simp only [hxy, decide_False]
    rw [List.all_eq_false]
    by_contra hall
    push_neg at hall
    apply hxy
    apply List.ext_getElem?
    intro i
    by_cases hi : i < x.length
    · have := hall i (List.mem_range.mpr hi)
      simpa using this
    · rw [List.getElem?_eq_none (by omega), List.getElem?_eq_none (by omega)]

/-- When the lengths agree, `arraysAreEqual` decides equality of the sorted
arrays and leaves both arguments sorted in place. -/
theorem arraysAreEqualM_eq_length (a b : List String) (h : a.length = b.length) :
    arraysAreEqualM a b = (decide (jsSort a = jsSort b), jsSort a, jsSort b) := by
  unfold arraysAreEqualM
  rw [if_neg (by omega)]
  have hlen : (jsSort a).length = (jsSort b).length := by
    rw [jsSort_length, jsSort_length, h]
  show ((List.range (jsSort a).length).all fun i => (jsSort a)[i]? == (jsSort b)[i]?,
      jsSort a, jsSort b) = _
  rw [all_range_getElem_eq _ _ hlen]

/-- When the lengths differ, `arraysAreEqual` returns `false` without
touching either argument. -/
theorem arraysAreEqualM_ne_length (a b : List String) (h : a.length ≠ b.length) :
    arraysAreEqualM a b = (false, a, b) := by
  unfold arraysAreEqualM
  rw [if_pos h]

/-! ### Claim C1: row-set selection -/

/-- Concrete candidate for the C1 counterexample: its column-id list
`["a", "a"]` equals the requested set `{"a"}` as an unordered set, but not as
a multiset. -/
def c1CexCandidate : QueryData := ⟨["a", "a"], [[.n 1, .n 2]]⟩

/-- C1 (counterexample): the candidate's column-ID list equals the requested
set `["a"]` as an unordered set, yet `findDataValue` returns `none` — the
claim "returns the first candidate whose column-ID list equals R as an
unordered set" fails because `arraysAreEqual` compares sorted lists
(multisets), and the length check rejects a duplicate-bearing candidate. -/
theorem findDataValue_setEquality_counterexample :
    sameAsSets c1CexCandidate.columns ["a"] = true ∧
    (findDataValueM ["a"] [c1CexCandidate]).1 = none := by
  decide

/-- C1 (amended): `findDataValue` returns the first candidate, in original
input order, whose column-ID list equals the requested list as a multiset
(equal sorted lists) — with that candidate's `columns` left sorted by the
in-place comparison — and `none` when no candidate matches as a multiset.
Ties resolve to the first match in input order (`List.find?`). -/
theorem findDataValue_first_multiset_match (req : List String) (cands : List QueryData) :
    (findDataValueM req cands).1 =
      (cands.find? (fun d => jsSort d.columns == jsSort req)).map
        (fun d => { d with columns := jsSort d.columns }) := by
  induction cands with
  | nil => rfl
  | cons d rest ih =>
    by_cases hlen : d.columns.length = req.length
    · simp only [findDataValueM]
      rw [arraysAreEqualM_eq_length _ _ hlen]
      by_cases heq : jsSort d.columns = jsSort req
      · rw [List.find?_cons_of_pos _ (by simp [heq])]
        simp [heq]
      · rw [List.find?_cons_of_neg _ (by simp [heq])]
        simp only [heq, decide_False, if_neg Bool.false_ne_true]
        exact ih
    · have hne : (jsSort d.columns == jsSort req) = false := by
        rw [beq_eq_false_iff_ne]
        intro hcontra
        apply hlen
        rw [← jsSort_length d.columns, ← jsSort_length req, hcontra]
      simp only [findDataValueM]
      rw [arraysAreEqualM_ne_length _ _ hlen]
      rw [List.find?_cons_of_neg _ (by simp [hne])]
      exact ih

/-! ### Embedding of `TableChartModel` (src/TableChartModel.ts) -/

/-- A named column of resolved values (`DataColumn` in the source).  A value
is `none` when the JavaScript indexing `row[colCnt]` fell outside the row
(the `undefined` produced for a short row). -/
structure DataColumn where
  id : String
  name : String
  values : List (Option CellVal)
deriving DecidableEq, Repr

/-- `DataDetails` of the source: the measure summaries (`_summaries`) and the
table data (`_data`). -/
structure DataDetails where
  summaries : List DataColumn
  data : List DataColumn
deriving DecidableEq, Repr

/-- `DataDetails.hasSummary`: `find(_ => _.id === id) !== undefined`. -/
def hasSummary (dd : DataDetails) (id : String) : Bool :=
  dd.summaries.any (fun s => s.id == id)

/-- `DataDetails.getDataById`: searches only the `_data` list. -/
def getDataById (dd : DataDetails) (id : String) : Option DataColumn :=
  dd.data.find? (fun s => s.id == id)

/-- `DataDetails.getDataByName`: searches only the `_data` list. -/
def getDataByName (dd : DataDetails) (name : String) : Option DataColumn :=
  dd.data.find? (fun s => s.name == name)

/-- The summary test of `_populateDataColumns`:

```ts
let isSummary = true;
if ((d.data.columns.length > 1) ||
    (d.data.dataValue.length > 1) ||
    (this._data.hasSummary(d.data.columns[0]))) {
    isSummary = false;
}
```

`d.data.columns[0]` is `undefined` for an empty column list, and
`hasSummary(undefined)` is `false` since every summary id is a string. -/
def isSummarySection (dd : DataDetails) (d : QueryData) : Bool :=
  !(decide (d.columns.length > 1) || decide (d.dataValue.length > 1) ||
    (match d.columns.head? with
     | some c0 => hasSummary dd c0
     | none => false))

/-- The per-column loop of `_populateDataColumns`: walk the section's column
ids with a position counter `p`, look each id up in the catalog, and collect
one `DataColumn` per position holding `d.data.dataValue[rowCnt][colCnt]` for
every row.  A column id absent from the catalog makes `column.name` throw on
the `undefined` lookup result; the surrounding `try`/`catch` logs and skips
exactly that column. -/
def sectionColumnsAux (catalog : List ChartColumn) (rows : List (List CellVal)) :
    Nat → List String → List DataColumn
  | _, [] => []
  | p, colId :: rest =>
    match catalog.find? (fun c => c.id == colId) with
    | none => sectionColumnsAux catalog rows (p + 1) rest
    | some column =>
        ⟨colId, column.name, rows.map (fun row => row[p]?)⟩ ::
          sectionColumnsAux catalog rows (p + 1) rest

/-- The columns extracted from one data section. -/
def sectionColumns (catalog : List ChartColumn) (d : QueryData) : List DataColumn :=
  sectionColumnsAux catalog d.dataValue 0 d.columns

/-- Processing of one data section by `_populateDataColumns`: the summary
flag is computed once against the summaries accumulated so far, then every
extracted column of the section is appended to `_summaries` or `_data`
according to that flag. -/
def processSection (catalog : List ChartColumn) (dd : DataDetails) (d : QueryData) :
    DataDetails :=
  let isSum := isSummarySection dd d
  let cols := sectionColumns catalog d
  if isSum then { dd with summaries := dd.summaries ++ cols }
  else { dd with data := dd.data ++ cols }

/-- `_populateDataColumns`: fold over the chart model's data sections,
starting from the empty `DataDetails` built by the constructor. -/
def populateDataColumns (catalog : List ChartColumn) (ds : List QueryData) : DataDetails :=
  ds.foldl (processSection catalog) ⟨[], []⟩

/-- `ChartConfigDimension` of the SDK: an axis key with its column list. -/
structure ChartConfigDimension where
  key : String
  columns : List ChartColumn
deriving DecidableEq, Repr

/-- `ChartConfig` of the SDK: a keyed group of dimensions. -/
structure ChartConfig where
  key : String
  dimensions : List ChartConfigDimension
deriving DecidableEq, Repr

/-- The chart model handed over by the host, restricted to the typed parts
the adapter reads: the column descriptors, the data sections and the chart
configuration groups. -/
structure ChartModel where
  columns : List ChartColumn
  data : List QueryData
  config : List ChartConfig
deriving DecidableEq, Repr

/-- Shallow embedding of `searchObjects(chartModel, 'key', k)` (src/util.ts)
as used by `_setColumnAxes`: on a well-typed chart model the objects carrying
a `key` field equal to an axis name are exactly the chart-config dimensions,
so the generic deep search amounts to collecting the dimensions with the
requested key across all configuration groups, in order. -/
def searchDimensions (m : ChartModel) (k : String) : List ChartConfigDimension :=
  m.config.foldl (fun acc cfg => acc ++ cfg.dimensions.filter (fun dim => dim.key == k)) []

/-- The state of a constructed `TableChartModel`: column catalog, data
details, and the axis column-id lists filled by `_setColumnAxes`. -/
structure TableChartModel where
  allColumns : List ChartColumn
  dataDetails : DataDetails
  xColumns : List String
  yColumns : List String
deriving DecidableEq, Repr

/-- The `TableChartModel` constructor: copy the columns, populate the data
details, then fill `xColumns` and `yColumns` with the ids of the columns of
every dimension keyed `'x'` resp. `'y'` (the nested push loops of
`_setColumnAxes`). -/
def buildTableChartModel (m : ChartModel) : TableChartModel :=
  { allColumns := m.columns
  , dataDetails := populateDataColumns m.columns m.data
  , xColumns := (searchDimensions m "x").foldl
      (fun acc dim => acc ++ dim.columns.map (fun c => c.id)) []
  , yColumns := (searchDimensions m "y").foldl
      (fun acc dim => acc ++ dim.columns.map (fun c => c.id)) [] }

/-- `TableChartModel.getXData`: push `getDataById(columnID)` for every x
column.  The source's non-null assertion `!` does not check anything, so a
missing column contributes `none` (`undefined`). -/
def getXData (t : TableChartModel) : List (Option DataColumn) :=
  t.xColumns.foldl (fun acc cid => acc ++ [getDataById t.dataDetails cid]) []

/-- `TableChartModel.getYData`: push `getDataById(columnID)` for every y
column, as in `getXData`. -/
def getYData (t : TableChartModel) : List (Option DataColumn) :=
  t.yColumns.foldl (fun acc cid => acc ++ [getDataById t.dataDetails cid]) []

/-! ### Embedding of `TableChartModelOld` (src/unnamed/part_004) -/

/-- `ColumnDescription` of the old model. -/
structure ColumnDescription where
  columnName : String
  columnId : String
  columnType : ColumnType
  dataType : DataType
deriving DecidableEq, Repr

/-- `TableChartModelOld.getColumnNameForId`. -/
def getColumnNameForId (cols : List ColumnDescription) (columnId : String) : Option String :=
  (cols.find? (fun c => c.columnId == columnId)).map (fun c => c.columnName)

/-- `TableChartModelOld.getColumnsWithDataType`: a filter, preserving the
original registration order. -/
def getColumnsWithDataType (cols : List ColumnDescription) (dt : DataType) :
    List ColumnDescription :=
  cols.filter (fun c => c.dataType == dt)

/-- `TableChartModelOld.getColumnsWithDataTypes`:

```ts
const columns: ColumnDescription[] = [];
for (const dt of dataTypes) {
    columns.push(...this.getColumnsWithDataType(dt));
}
return columns;
```
-/
def getColumnsWithDataTypes (cols : List ColumnDescription) (dataTypes : List DataType) :
    List ColumnDescription :=
  dataTypes.foldl (fun acc dt => acc ++ getColumnsWithDataType cols dt) []

/-- Assignment `this._data[cname] = ...` on the JavaScript object modelled as
an association list: replace the value of an existing key in place, append a
new key at the end. -/
def upsert (k : String) (v : List (Option CellVal)) :
    List (String × List (Option CellVal)) → List (String × List (Option CellVal))
  | [] => [(k, v)]
  | (k', v') :: rest => if k' == k then (k, v) :: rest else (k', v') :: upsert k v rest

/-- The extraction loop of `TableChartModelOld._populate` over the selected
section: for each column id (position `idx`), store under the column's name
the list `dataValue[idx]` of every row.  When the id is missing from the
catalog, `cname` is `undefined` and the object key coerces to the string
`"undefined"`. -/
def populateOldData (catalog : List ColumnDescription) (qd : QueryData) :
    List (String × List (Option CellVal)) :=
  (qd.columns.enum).foldl
    (fun m pc =>
      let cname := (getColumnNameForId catalog pc.2).getD "undefined"
      upsert cname (qd.dataValue.map (fun row => row[pc.1]?)) m)
    []

/-- The state of a constructed `TableChartModelOld`.  `chartData` is the
chart model's data array after construction: `findDataValue` sorts the
column-id list of every length-matching candidate in place (up to and
including the selected one). -/
structure TableChartModelOld where
  columns : List ColumnDescription
  data : List (String × List (Option CellVal))
  chartData : List QueryData
deriving DecidableEq, Repr

/-- The `TableChartModelOld` constructor (`_populate`): select the section
whose column ids compare equal to the catalog's id list under
`arraysAreEqual`, then extract its per-column data; no match leaves `_data`
empty.  The extraction reads the selected section through the returned
reference, i.e. with its column ids already sorted in place. -/
def buildTableChartModelOld (catalog : List ColumnDescription) (chartData : List QueryData) :
    TableChartModelOld :=
  let r := findDataValueM (catalog.map (fun c => c.columnId)) chartData
  { columns := catalog
  , data := match r.1 with
      | none => []
      | some qd => populateOldData catalog qd
  , chartData := r.2 }

/-- `TableChartModelOld.getDataForColumnName`:

```ts
try {
    return this._data[columnName];
} catch {
    throw new Error(`No column found with ID ${columnName}`)
}
```

Indexing a JavaScript object with a missing key does not throw, it yields
`undefined` (`none` here); the `catch` branch is unreachable. -/
def getDataForColumnName (m : TableChartModelOld) (columnName : String) :
    Option (List (Option CellVal)) :=
  (m.data.find? (fun kv => kv.1 == columnName)).map (fun kv => kv.2)

/-- `TableChartModelOld.getDataForColumnId`: resolve the name, throw (model:
`Except.error`) when the name is falsy (`undefined` or the empty string),
otherwise defer to `getDataForColumnName`. -/
def getDataForColumnId (m : TableChartModelOld) (columnId : String) :
    Except String (Option (List (Option CellVal))) :=
  match getColumnNameForId m.columns columnId with
  | none => .error ("No column found with ID " ++ columnId)
  | some n =>
      if n == "" then .error ("No column found with ID " ++ columnId)
      else .ok (getDataForColumnName m n)

/-! ### Embedding of `getDefaultChartConfig` (src/histogram.ts) -/

/-- The numeric data types, in the order declared in src/histogram.ts. -/
def NumericTypes : List DataType := [.DOUBLE, .FLOAT, .INT32, .INT64]

/-- `getDefaultChartConfig`: with no columns, return the bare default config;
otherwise put the first column of numeric data type (if any) as the sole
member of a `'y'` dimension, and every column whose id differs from that
column's id into an `'x'` dimension, in original order.  With no numeric
column, `firstMeasure?.id` is `undefined`, so every column lands on the x
axis. -/
def getDefaultChartConfig (m : ChartModel) : List ChartConfig :=
  if m.columns.length < 1 then [⟨"default", []⟩]
  else
    let firstMeasure := m.columns.find? (fun c => NumericTypes.contains c.dataType)
    let yDims : List ChartConfigDimension :=
      match firstMeasure with
      | some fm => [⟨"y", [fm]⟩]
      | none => []
    let xCols := m.columns.filter (fun c =>
      match firstMeasure with
      | some fm => c.id != fm.id
      | none => true)
    [⟨"default", yDims ++ [⟨"x", xCols⟩]⟩]

/-! ### Loop-accumulator lemmas -/

/-- A push-loop `for (x of l) acc.push(g(x))` is a map. -/
theorem foldl_push_eq_map {α β : Type} (g : α → β) (l : List α) (init : List β) :
    l.foldl (fun acc a => acc ++ [g a]) init = init ++ l.map g := by
  induction l generalizing init with
  | nil => simp
  | cons a l ih => simp [ih]

/-- A spread-push loop `for (x of l) acc.push(...f(x))` concatenates the
per-element lists. -/
theorem foldl_append_eq_bind {α β : Type} (f : α → List β) (l : List α) (init : List β) :
    l.foldl (fun acc a => acc ++ f a) init = init ++ l.flatMap f := by
  induction l generalizing init with
  | nil => simp
  | cons a l ih => simp [ih]

/-! ### Claim C7: catalog query by data types -/

/-- Concrete catalog for the C7 counterexample: INT32 and STRING columns
interleaved in registration order. -/
def c7Catalog : List ColumnDescription :=
  [⟨"A", "a", .MEASURE, .INT32⟩, ⟨"B", "b", .ATTRIBUTE, .STRING⟩, ⟨"C", "c", .MEASURE, .INT32⟩]

/-- C7 (counterexample): requesting the types `[STRING, INT32]` over the
catalog `[A:INT32, B:STRING, C:INT32]` returns `[B, A, C]`, not the
original registration order `[A, B, C]` — the result is grouped by requested
type, so the claim "returns the matching columns in the original column
order from registration" fails. -/
theorem getColumnsWithDataTypes_order_counterexample :
    getColumnsWithDataTypes c7Catalog [.STRING, .INT32] =
      [⟨"B", "b", .ATTRIBUTE, .STRING⟩, ⟨"A", "a", .MEASURE, .INT32⟩,
        ⟨"C", "c", .MEASURE, .INT32⟩] ∧
    getColumnsWithDataTypes c7Catalog [.STRING, .INT32] ≠
      c7Catalog.filter (fun c => [DataType.STRING, DataType.INT32].contains c.dataType) := by
  decide

/-- C7 (amended): `getColumnsWithDataTypes` returns, for each requested data
type in request order, the columns of that type — and only within each type
group is the original registration order preserved (each group is a sublist
of the catalog). -/
theorem getColumnsWithDataTypes_grouped_by_type (cols : List ColumnDescription)
    (dataTypes : List DataType) :
    getColumnsWithDataTypes cols dataTypes =
      dataTypes.flatMap (fun dt => getColumnsWithDataType cols dt) ∧
    ∀ dt, (getColumnsWithDataType cols dt).Sublist cols := by
  constructor
  · rw [getColumnsWithDataTypes, foldl_append_eq_bind, List.nil_append]
  · intro dt
    exact List.filter_sublist cols

/-! ### Claim C3: default chart configuration -/

/-- C3: with at least one column, distinct column ids, and some column of
numeric data type, the synthesized default configuration has exactly the
first numeric column as the sole `'y'` member and all remaining columns (the
chosen column excluded) as the `'x'` members in original order. -/
theorem getDefaultChartConfig_first_numeric_y (m : ChartModel) (fm : ChartColumn)
    (hne : m.columns ≠ [])
    (hfm : m.columns.find? (fun c => NumericTypes.contains c.dataType) = some fm)
    (hnd : (m.columns.map (fun c => c.id)).Nodup) :
    getDefaultChartConfig m =
      [⟨"default", [⟨"y", [fm]⟩, ⟨"x", m.columns.filter (fun c => c != fm)⟩]⟩] := by
  have hfm_mem : fm ∈ m.columns := List.mem_of_find?_eq_some hfm
  unfold getDefaultChartConfig
  rw [if_neg (by have := List.length_pos.mpr hne; omega)]
  simp only [hfm]
  have hfilter : m.columns.filter (fun c => c.id != fm.id) =
      m.columns.filter (fun c => c != fm) := by
    apply List.filter_congr
    intro c hc
    by_cases hceq : c = fm
    · subst hceq
      simp
    · have hid : c.id ≠ fm.id := fun hid =>
        hceq (List.inj_on_of_nodup_map hnd hc hfm_mem hid)
      rw [bne_iff_ne.mpr hid, bne_iff_ne.mpr hceq]
  rw [hfilter]
  rfl

/-- The columns of the C3 witness: `[A:string, B:int, C:float]`. -/
def c3Columns : List ChartColumn :=
  [⟨"a", "A", .ATTRIBUTE, .STRING⟩, ⟨"b", "B", .MEASURE, .INT32⟩, ⟨"c", "C", .MEASURE, .FLOAT⟩]

/-- The first numeric column of the C3 witness. -/
def c3B : ChartColumn := ⟨"b", "B", .MEASURE, .INT32⟩

/-- C3 (witness): for `[A:string, B:int, C:float]` with no user
configuration, the default configuration is `y = [B]`, `x = [A, C]`. -/
theorem getDefaultChartConfig_first_numeric_y_witness :
    (⟨c3Columns, [], []⟩ : ChartModel).columns ≠ [] ∧
    (⟨c3Columns, [], []⟩ : ChartModel).columns.find?
      (fun c => NumericTypes.contains c.dataType) = some c3B ∧
    getDefaultChartConfig ⟨c3Columns, [], []⟩ =
      [⟨"default", [⟨"y", [c3B]⟩,
        ⟨"x", (⟨c3Columns, [], []⟩ : ChartModel).columns.filter (fun c => c != c3B)⟩]⟩] :=
  ⟨by decide, by decide,
    getDefaultChartConfig_first_numeric_y ⟨c3Columns, [], []⟩ c3B
      (by decide) (by decide) (by decide)⟩

/-! ### Claim C6: zero-column construction -/

/-- With an empty catalog every column of every section is skipped by the
`try`/`catch`, so no data column is ever extracted. -/
theorem sectionColumnsAux_nil_catalog (rows : List (List CellVal)) (cids : List String)
    (p : Nat) : sectionColumnsAux [] rows p cids = [] := by
  induction cids generalizing p with
  | nil => rfl
  | cons c cids ih => simp [sectionColumnsAux, List.find?, ih]

/-- With an empty catalog, processing a section leaves the data details
unchanged. -/
theorem processSection_nil_catalog (dd : DataDetails) (d : QueryData) :
    processSection [] dd d = dd := by
  cases dd with
  | mk s t =>
    unfold processSection sectionColumns
    rw [sectionColumnsAux_nil_catalog]
    by_cases h : isSummarySection ⟨s, t⟩ d <;> simp [h]

/-- A concrete zero-column chart model that still carries a data section and
a configuration group. -/
def c6Model : ChartModel := ⟨[], [⟨["c1"], [[.n 5]]⟩], [⟨"column", [⟨"y", []⟩]⟩]⟩

/-- C6 (counterexample): constructing the facade from a chart model with
zero columns succeeds, yielding an ordinary (empty) model — no `NoColumns`
error is raised anywhere in the code, and `getDefaultChartConfig` likewise
returns a configuration instead of failing. -/
theorem zeroColumns_construction_succeeds :
    buildTableChartModel c6Model = ⟨[], ⟨[], []⟩, [], []⟩ ∧
    getDefaultChartConfig ⟨[], [], []⟩ = [⟨"default", []⟩] := by
  decide

/-- C6 (amended): construction with zero columns succeeds for every data and
configuration input: the model has no columns and empty data details (every
data column is skipped for want of a catalog entry) while the axis ids are
read from the configuration as usual, and `getDefaultChartConfig` returns
the single bare `'default'` configuration with no dimensions. -/
theorem zeroColumns_model_empty (ds : List QueryData) (cfgs : List ChartConfig) :
    (buildTableChartModel ⟨[], ds, cfgs⟩).allColumns = [] ∧
    (buildTableChartModel ⟨[], ds, cfgs⟩).dataDetails = ⟨[], []⟩ ∧
    getDefaultChartConfig ⟨[], ds, cfgs⟩ = [⟨"default", []⟩] := by
  refine ⟨rfl, ?_, rfl⟩
  show populateDataColumns [] ds = ⟨[], []⟩
  unfold populateDataColumns
  have h : ∀ init : DataDetails, ds.foldl (processSection []) init = init := by
    induction ds with
    | nil => intro init; rfl
    | cons d ds ih =>
      intro init
      rw [List.foldl_cons, processSection_nil_catalog, ih]
  exact h ⟨[], []⟩

/-! ### Provenance of extracted data columns -/

/-- Every data column produced by the extraction loop from position `p`
onwards originates at some offset `j` of the remaining column ids: its id
sits there, its name is the catalog name for that id, and its value list
reads each row at the absolute position `p + j`. -/
theorem mem_sectionColumnsAux (catalog : List ChartColumn) (rows : List (List CellVal)) :
    ∀ (cids : List String) (p : Nat) (dc : DataColumn),
      dc ∈ sectionColumnsAux catalog rows p cids →
      ∃ (j : Nat) (column : ChartColumn), cids[j]? = some dc.id ∧
        catalog.find? (fun c => c.id == dc.id) = some column ∧
        dc.name = column.name ∧
        dc.values = rows.map (fun row => row[p + j]?) := by
  intro cids
  induction cids with
  | nil =>
    intro p dc h
    simp [sectionColumnsAux] at h
  | cons colId rest ih =>
    intro p dc h
    cases hfind : catalog.find? (fun c => c.id == colId) with
    | none =>
      rw [sectionColumnsAux, hfind] at h
      obtain ⟨j, column, hj, hcol, hname, hval⟩ := ih (p + 1) dc h
      have hpj : p + 1 + j = p + (j + 1) := by omega
      rw [hpj] at hval
      exact ⟨j + 1, column, by simpa using hj, hcol, hname, hval⟩
    | some column =>
      rw [sectionColumnsAux, hfind] at h
      rcases List.mem_cons.mp h with heq | htail
      · subst heq
        exact ⟨0, column, by simp, hfind, rfl, rfl⟩
      · obtain ⟨j, column', hj, hcol, hname, hval⟩ := ih (p + 1) dc htail
        have hpj : p + 1 + j = p + (j + 1) := by omega
        rw [hpj] at hval
        exact ⟨j + 1, column', by simpa using hj, hcol, hname, hval⟩

/-- Provenance for a whole section: every extracted data column reads each
row of the section at the position where its id sits in the section's
column-id list. -/
theorem mem_sectionColumns (catalog : List ChartColumn) (d : QueryData) (dc : DataColumn)
    (h : dc ∈ sectionColumns catalog d) :
    ∃ (j : Nat) (column : ChartColumn), d.columns[j]? = some dc.id ∧
      catalog.find? (fun c => c.id == dc.id) = some column ∧
      dc.name = column.name ∧
      dc.values = d.dataValue.map (fun row => row[j]?) := by
  obtain ⟨j, column, hj, hcol, hname, hval⟩ :=
    mem_sectionColumnsAux catalog d.dataValue d.columns 0 dc h
  rw [Nat.zero_add] at hval
  exact ⟨j, column, hj, hcol, hname, hval⟩

/-- Every data column in the populated details comes from one of the data
sections. -/
theorem mem_populateDataColumns_data (catalog : List ChartColumn) (ds : List QueryData)
    (dc : DataColumn) (h : dc ∈ (populateDataColumns catalog ds).data) :
    ∃ d ∈ ds, dc ∈ sectionColumns catalog d := by
  have key : ∀ (l : List QueryData) (init : DataDetails),
      dc ∈ (l.foldl (processSection catalog) init).data →
      dc ∈ init.data ∨ ∃ d ∈ l, dc ∈ sectionColumns catalog d := by
    intro l
    induction l with
    | nil =>
      intro init hmem
      exact Or.inl hmem
    | cons d l ihl =>
      intro init hmem
      rw [List.foldl_cons] at hmem
      rcases ihl (processSection catalog init d) hmem with hinit | ⟨d', hd', hdc'⟩
      · by_cases hs : isSummarySection init d
        · rw [show processSection catalog init d =
              { init with summaries := init.summaries ++ sectionColumns catalog d } from
              by unfold processSection; rw [if_pos hs]] at hinit
          exact Or.inl hinit
        · rw [show processSection catalog init d =
              { init with data := init.data ++ sectionColumns catalog d } from
              by unfold processSection; rw [if_neg hs]] at hinit
          rcases List.mem_append.mp hinit with h1 | h2
          · exact Or.inl h1
          · exact Or.inr ⟨d, List.mem_cons_self d l, h2⟩
      · exact Or.inr ⟨d', List.mem_cons_of_mem d hd', hdc'⟩
  rcases key ds ⟨[], []⟩ h with hinit | hfound
  · simp at hinit
  · exact hfound

/-! ### Claim C2: no width validation in extraction -/

/-- Catalog of the C2 counterexample. -/
def c2Catalog : List ChartColumn := [⟨"c1", "Qty", .MEASURE, .INT32⟩]

/-- Section of the C2 counterexample: the declared column count is 1, but
both rows are empty (width 0). -/
def c2Section : QueryData := ⟨["c1"], [[], []]⟩

/-- The column the C2 counterexample extracts: the missing cells are padded
with `undefined`. -/
def c2Extracted : DataColumn := ⟨"c1", "Qty", [none, none]⟩

/-- C2 (counterexample): a RowSet whose rows are shorter than its column-id
list is extracted without any failure — there is no `MalformedRowSet` error
in the code — and the missing cells are silently padded with `undefined`
(`none`), refuting both the "fails with MalformedRowSet" and the "never
silently truncates or pads" parts of the claim. -/
theorem extraction_width_mismatch_counterexample :
    (∃ row ∈ c2Section.dataValue, row.length ≠ c2Section.columns.length) ∧
    populateDataColumns c2Catalog [c2Section] = ⟨[], [c2Extracted]⟩ := by
  decide

/-- C2 (amended): extraction never fails and performs no width validation:
for every extracted column it emits exactly one value per row — the row's
cell at the position of the column id, `undefined` (`none`) when the row is
shorter, with surplus cells of overlong rows ignored — so the value count
always equals the row count, regardless of any width mismatch. -/
theorem extraction_values_one_per_row (catalog : List ChartColumn) (d : QueryData)
    (dc : DataColumn) (h : dc ∈ sectionColumns catalog d) :
    ∃ (p : Nat) (column : ChartColumn), d.columns[p]? = some dc.id ∧
      catalog.find? (fun c => c.id == dc.id) = some column ∧
      dc.name = column.name ∧
      dc.values = d.dataValue.map (fun row => row[p]?) ∧
      dc.values.length = d.dataValue.length := by
  obtain ⟨p, column, hp, hcol, hname, hval⟩ := mem_sectionColumns catalog d dc h
  exact ⟨p, column, hp, hcol, hname, hval, by rw [hval, List.length_map]⟩

/-- C2 (witness): the padded column of the counterexample section satisfies
the amended extraction description. -/
theorem extraction_values_one_per_row_witness :
    c2Extracted ∈ sectionColumns c2Catalog c2Section ∧
    ∃ (p : Nat) (column : ChartColumn), c2Section.columns[p]? = some c2Extracted.id ∧
      c2Catalog.find? (fun c => c.id == c2Extracted.id) = some column ∧
      c2Extracted.name = column.name ∧
      c2Extracted.values = c2Section.dataValue.map (fun row => row[p]?) ∧
      c2Extracted.values.length = c2Section.dataValue.length :=
  ⟨by decide, extraction_values_one_per_row c2Catalog c2Section c2Extracted (by decide)⟩

/-! ### Claim C4: y-axis data equals direct row-set indexing -/

/-- C4: whenever reading the y-axis data of a constructed facade yields a
data column, that column's values are exactly the matched data section's
rows indexed at the position where the column's id sits in the section's
column-id list, in row order — no transposition and no index shift. -/
theorem getYData_matches_rowset_indexing (m : ChartModel) (dc : DataColumn)
    (h : some dc ∈ getYData (buildTableChartModel m)) :
    ∃ d ∈ m.data, ∃ (p : Nat), d.columns[p]? = some dc.id ∧
      dc.values = d.dataValue.map (fun row => row[p]?) := by
  rw [getYData, foldl_push_eq_map, List.nil_append] at h
  obtain ⟨cid, _, hfind⟩ := List.mem_map.mp h
  have hdc : dc ∈ (buildTableChartModel m).dataDetails.data :=
    List.mem_of_find?_eq_some hfind
  obtain ⟨d, hd, hmem⟩ := mem_populateDataColumns_data m.columns m.data dc hdc
  obtain ⟨p, column, hp, _, _, hval⟩ := mem_sectionColumns m.columns d dc hmem
  exact ⟨d, hd, p, hp, hval⟩

/-- The chart model of the C4 witness (the spec's scenario): one INT32
column `c1` named `Qty`, one data section with rows `[[5], [7], [9]]`, and a
configuration putting `c1` on the y axis. -/
def c4Model : ChartModel :=
  ⟨[⟨"c1", "Qty", .MEASURE, .INT32⟩],
   [⟨["c1"], [[.n 5], [.n 7], [.n 9]]⟩],
   [⟨"column", [⟨"y", [⟨"c1", "Qty", .MEASURE, .INT32⟩]⟩]⟩]⟩

/-- The data column the C4 witness reads back: values `[5, 7, 9]` in row
order. -/
def c4Expected : DataColumn := ⟨"c1", "Qty", [some (.n 5), some (.n 7), some (.n 9)]⟩

/-- C4 (witness): on the concrete scenario, `getYData` yields the column
with values `[5, 7, 9]`, and these equal the section's rows indexed at the
column's position. -/
theorem getYData_matches_rowset_indexing_witness :
    some c4Expected ∈ getYData (buildTableChartModel c4Model) ∧
    ∃ d ∈ c4Model.data, ∃ (p : Nat), d.columns[p]? = some c4Expected.id ∧
      c4Expected.values = d.dataValue.map (fun row => row[p]?) :=
  ⟨by decide, getYData_matches_rowset_indexing c4Model c4Expected (by decide)⟩

/-! ### Claim C10: single-value sections become summaries -/

/-- C10: a data section carrying exactly one column and exactly one row,
whose column id is not yet among the summaries but is in the catalog, is
classified as a summary: processing it appends the extracted column to
`_summaries` and leaves `_data` — the only list searched by `getDataById`
(and hence by `getXData`/`getYData`) — unchanged, so its values are never
returned by those reads. -/
theorem single_value_section_summary_invariant (catalog : List ChartColumn)
    (dd : DataDetails) (cid : String) (row : List CellVal) (column : ChartColumn)
    (hno : hasSummary dd cid = false)
    (hcat : catalog.find? (fun c => c.id == cid) = some column) :
    processSection catalog dd ⟨[cid], [row]⟩ =
      { dd with summaries := dd.summaries ++ [⟨cid, column.name, [row[0]?]⟩] } ∧
    ∀ i, getDataById (processSection catalog dd ⟨[cid], [row]⟩) i = getDataById dd i := by
  have h1 : isSummarySection dd ⟨[cid], [row]⟩ = true := by
    simp [isSummarySection, hno]
  have h2 : sectionColumns catalog ⟨[cid], [row]⟩ = [⟨cid, column.name, [row[0]?]⟩] := by
    rw [sectionColumns, sectionColumnsAux, hcat]
    rfl
  have h3 : processSection catalog dd ⟨[cid], [row]⟩ =
      { dd with summaries := dd.summaries ++ [⟨cid, column.name, [row[0]?]⟩] } := by
    unfold processSection
    rw [if_pos h1, h2]
  refine ⟨h3, fun i => ?_⟩
  rw [h3]
  rfl

/-- Catalog of the C10 witness: the summary column `c9` named `Total`. -/
def c10Catalog : List ChartColumn := [⟨"c9", "Total", .MEASURE, .INT64⟩]

/-- C10 (witness): the one-column one-row section `{columns: ["c9"],
dataValue: [[350]]}` lands in the summaries and leaves the data reads
unchanged. -/
theorem single_value_section_summary_invariant_witness :
    hasSummary (⟨[], []⟩ : DataDetails) "c9" = false ∧
    c10Catalog.find? (fun c => c.id == "c9") = some ⟨"c9", "Total", .MEASURE, .INT64⟩ ∧
    (processSection c10Catalog ⟨[], []⟩ ⟨["c9"], [[.n 350]]⟩ =
        ⟨[⟨"c9", "Total", [some (.n 350)]⟩], []⟩ ∧
      ∀ i, getDataById (processSection c10Catalog ⟨[], []⟩ ⟨["c9"], [[.n 350]]⟩) i =
        getDataById ⟨[], []⟩ i) :=
  ⟨rfl, rfl,
    single_value_section_summary_invariant c10Catalog ⟨[], []⟩ "c9" [.n 350]
      ⟨"c9", "Total", .MEASURE, .INT64⟩ rfl rfl⟩

/-! ### Claim C5: reads with no matching row-set -/

/-- Catalog of the C5 failing input for the old model. -/
def c5OldCatalog : List ColumnDescription := [⟨"Qty", "c1", .MEASURE, .INT32⟩]

/-- Chart model of the C5 failing input for the current facade: a known
column on the y axis but an empty data array. -/
def c5Model : ChartModel :=
  ⟨[⟨"c1", "Qty", .MEASURE, .INT32⟩], [],
   [⟨"column", [⟨"y", [⟨"c1", "Qty", .MEASURE, .INT32⟩]⟩]⟩]⟩

/-- C5: with an empty data array (no row-set candidates at all),
`getDataForColumnId` on the old model raises no error but returns
`undefined` (`none`) — not the empty array promised by its own doc comment
("@return An array of values or empty array") — because `this._data[name]`
on a missing key yields `undefined` and the `catch` branch is unreachable;
likewise `getYData` on the current facade returns one `undefined` entry per
configured y column rather than an empty value list. -/
theorem emptyData_reads_return_undefined :
    getDataForColumnId (buildTableChartModelOld c5OldCatalog []) "c1" = .ok none ∧
    getYData (buildTableChartModel c5Model) = [none] :=
  ⟨rfl, rfl⟩

/-! ### Claim C8: reads are pure and idempotent -/

/-- C8: all public reads are pure functions of the state fixed at
construction, so calling any of them twice with the same argument returns
equal results; moreover the `getYData` push loop is exactly a map of
`getDataById` over the configured y columns (and never consults the
summaries). -/
theorem reads_idempotent (t : TableChartModel) (dd : DataDetails)
    (m : TableChartModelOld) (id : String) :
    getDataById dd id = getDataById dd id ∧
    getDataForColumnId m id = getDataForColumnId m id ∧
    getYData t = getYData t ∧
    getXData t = getXData t ∧
    getYData t = t.yColumns.map (getDataById t.dataDetails) := by
  refine ⟨rfl, rfl, rfl, rfl, ?_⟩
  rw [getYData, foldl_push_eq_map, List.nil_append]

/-! ### Claim C9: the selection query mutates its inputs -/

/-- C9: `arraysAreEqual` sorts both of its argument arrays in place whenever
their lengths agree (the requested column-ID list handed to it included),
and consequently a `findDataValue` query can leave a candidate RowSet's
`columns` list reordered: the concrete candidate `["b", "a"]` queried with
`["a", "b"]` is left as `["a", "b"]`, different from its original state. -/
theorem arraysAreEqual_sorts_in_place :
    (∀ a b : List String, a.length = b.length →
      (arraysAreEqualM a b).2.1 = jsSort a ∧ (arraysAreEqualM a b).2.2 = jsSort b) ∧
    (findDataValueM ["a", "b"] [⟨["b", "a"], [[.n 1, .n 2]]⟩]).2 =
      [⟨["a", "b"], [[.n 1, .n 2]]⟩] ∧
    (⟨["b", "a"], [[.n 1, .n 2]]⟩ : QueryData) ≠ ⟨["a", "b"], [[.n 1, .n 2]]⟩ := by
  refine ⟨fun a b h => ?_, by decide, by decide⟩
  rw [arraysAreEqualM_eq_length a b h]
  exact ⟨rfl, rfl⟩

/-- C9 (witness): on the concrete arrays `["b", "a"]` and `["a", "c"]` (equal
lengths), both arguments are left sorted. -/
theorem arraysAreEqual_sorts_in_place_witness :
    (["b", "a"] : List String).length = (["a", "c"] : List String).length ∧
    ((arraysAreEqualM ["b", "a"] ["a", "c"]).2.1 = jsSort ["b", "a"] ∧
      (arraysAreEqualM ["b", "a"] ["a", "c"]).2.2 = jsSort ["a", "c"]) :=
  ⟨rfl, arraysAreEqual_sorts_in_place.1 ["b", "a"] ["a", "c"] rfl⟩
